import Mathlib

/-!
Verification of the roaming-synchronization engine of ev-server.

Shallow embedding of:
- `OCPIPushCdrsTask.processTenant` (scheduler/tasks/ocpi/OCPIPushCdrsTask.ts):
  the CDR-push scheduled task, modelled as a pure function from an abstract
  environment (lock availability, storage contents, outcome of the roaming
  call) to the trace of observable events plus the error, if any, that
  escapes to the caller.
- `EmspOCPIClient` (pullLocations / pullSessions / pullCdrs / pushTokens /
  processLocation / constructor): pagination, per-item aggregation, and
  location reconciliation, modelled as pure state-passing functions.

Asynchronous JS code is sequential between `await` points; counter updates
and list pushes are atomic, so bounded-parallel `Promise.map` item loops are
embedded as sequential folds (the counters commute).
-/

/-! ## CDR-push scheduled task (OCPIPushCdrsTask.processTenant) -/

/-- The `TransactionOcpiData` roaming sub-record of a transaction.
The payloads are abstracted to `Nat` identifiers. -/
structure OcpiData where
  session : Option Nat := none
  cdr : Option Nat := none
  deriving DecidableEq, Repr

/-- The raw transaction document as seen by the candidate aggregation query
(`stop` exists / `ocpiData` exists / `ocpiData.cdr` null). -/
structure TxDoc where
  id : Nat
  hasStop : Bool
  ocpiData : Option OcpiData
  deriving DecidableEq, Repr

/-- The transaction re-fetched by `TransactionStorage.getTransaction`. -/
structure Transaction where
  id : Nat
  chargeBoxID : Nat
  tagID : Nat
  ocpiData : Option OcpiData
  deriving DecidableEq, Repr

/-- Observable events of one `processTenant` run. -/
inductive Ev where
  | acqTenant
  | relTenant
  | acqTx (t : Nat)
  | relTx (t : Nat)
  | finalize (t : Nat)
  | persist (t : Nat)
  | logSkip (t : Nat)
  | logFail (t : Nat)
  | logTopError
  deriving DecidableEq, Repr

/-- Abstract environment of one `processTenant` run: tenant component state,
lock availability (an unavailable lock is `false`, not an error), storage
contents, and the outcome of the external roaming-finalize call
(`OCPPUtils.processTransactionRoaming`), which may throw. `queryFails`
models the candidate aggregation query throwing. -/
structure TaskEnv where
  ocpiActive : Bool
  tenantLockAvail : Bool
  queryFails : Bool
  txDocs : List TxDoc
  txLockAvail : Nat → Bool
  getTransaction : Nat → Option Transaction
  chargingStationExists : Nat → Bool
  tagExists : Nat → Bool
  roamingOutcome : Nat → Except Unit OcpiData

/-- The candidate query: `$match` on `stop` exists, `ocpiData` exists and
`ocpiData.cdr` null, projected to `_id`. -/
def candidateTxs (env : TaskEnv) : List Nat :=
  (env.txDocs.filter fun d =>
    d.hasStop && d.ocpiData.isSome && (d.ocpiData.bind OcpiData.cdr).isNone).map TxDoc.id

/-- Body of the per-transaction `try` block (lines 54-117 of the task):
re-fetch, re-check `ocpiData.cdr`, resolve charging station and tag, call
the roaming finalize (logged failure if it throws), persist. -/
def processOneTxBody (env : TaskEnv) (t : Nat) : List Ev :=
  match env.getTransaction t with
  | none => [Ev.logSkip t]
  | some tx =>
    if (tx.ocpiData.bind OcpiData.cdr).isSome then
      [Ev.logSkip t]
    else if !env.chargingStationExists tx.chargeBoxID then
      [Ev.logSkip t]
    else if !env.tagExists tx.tagID then
      [Ev.logSkip t]
    else
      match env.roamingOutcome t with
      | Except.error _ => [Ev.finalize t, Ev.logFail t]
      | Except.ok _ => [Ev.finalize t, Ev.persist t]

/-- One iteration of the candidate loop: acquire the per-transaction lock
(unavailable means a silent skip), run the body, release the lock in the
`finally` block. -/
def processOneTx (env : TaskEnv) (t : Nat) : List Ev :=
  if env.txLockAvail t then
    Ev.acqTx t :: processOneTxBody env t ++ [Ev.relTx t]
  else []

/-- The sequential candidate loop. -/
def txLoop (env : TaskEnv) : List Nat → List Ev
  | [] => []
  | t :: ts => processOneTx env t ++ txLoop env ts

/-- Everything inside the outer `try`: component check, tenant-wide lock
acquisition, candidate query (whose failure unwinds through the `finally`
that releases the tenant lock), candidate loop, tenant lock release.
The second component is the error escaping this block, if any. -/
def runBody (env : TaskEnv) : List Ev × Option Unit :=
  if env.ocpiActive then
    if env.tenantLockAvail then
      if env.queryFails then
        ([Ev.acqTenant, Ev.relTenant], some ())
      else
        (Ev.acqTenant :: txLoop env (candidateTxs env) ++ [Ev.relTenant], none)
    else ([], none)
  else ([], none)

/-- The whole `processTenant`: the outer `try`/`catch` logs any escaping error and
returns normally. The second component is the error propagated to the
scheduler. -/
def processTenant (env : TaskEnv) : List Ev × Option Unit :=
  match runBody env with
  | (tr, some _) => (tr ++ [Ev.logTopError], none)
  | (tr, none) => (tr, none)

/-! ## Pagination (pullLocations / pullSessions / pullCdrs page loop)

Each pull flow runs a `do`/`while` over URLs: fetch the page, process it,
parse the `next` link from the response (`OCPIUtils.getNextUrl` on the
`link` header, abstracted here to the `next` field of the page), and
continue iff the next link is present, non-empty, and different from the
URL just fetched. The embedding is fuel-indexed; the fuel only bounds the
number of iterations and every theorem supplies enough of it. -/

/-- One HTTP page: its items (abstracted to `Nat` ids) and the parsed
`rel=next` link of the response, if any. -/
structure OcpiPage where
  data : List Nat
  next : Option String
  deriving DecidableEq, Repr

/-- The page-fetch loop: process the page at `url`, then follow the `next`
link exactly when it is present, non-empty and differs from `url`. -/
def fetchPages (fetch : String → OcpiPage) : Nat → String → List OcpiPage
  | 0, _ => []
  | fuel + 1, url =>
    match (fetch url).next with
    | some nextUrl =>
      if 0 < nextUrl.length ∧ nextUrl ≠ url then
        fetch url :: fetchPages fetch fuel nextUrl
      else [fetch url]
    | none => [fetch url]

/-- A three-page response sequence u1 → u2 → u3 → (no next). -/
def fetchThree : String → OcpiPage := fun u =>
  if u = "u1" then { data := [1], next := some "u2" }
  else if u = "u2" then { data := [2], next := some "u3" }
  else { data := [3], next := none }

/-- A self-referential response sequence u1 → u1. -/
def fetchSelf : String → OcpiPage := fun _ => { data := [1], next := some "u1" }

/-! ## Sync-result aggregation (pullSessions / pullCdrs / pushTokens /
pullLocations summaries)

`OCPIResult` is the summary object each flow initializes, mutates per item,
and returns. Item processing outcomes (the external per-item call
succeeding or throwing) are abstracted to a boolean predicate. -/

/-- The `OCPIResult` record returned by every sync flow. -/
structure OCPIResult where
  success : Nat
  failure : Nat
  total : Nat
  logs : List String
  objectIDsInFailure : List String
  deriving DecidableEq, Repr

/-- The initializer literal at the top of each flow. -/
def emptyResult : OCPIResult :=
  { success := 0, failure := 0, total := 0, logs := [], objectIDsInFailure := [] }

/-- Per-page item loop of `pullSessions`: `updateTransaction` succeeding
increments `success`, throwing increments `failure` and appends a log. -/
def sessionsPageStep (outcome : Nat → Bool) (r : OCPIResult) (items : List Nat) : OCPIResult :=
  items.foldl (fun r it =>
    if outcome it then { r with success := r.success + 1 }
    else { r with failure := r.failure + 1,
                  logs := r.logs ++ ["Failed to update OCPI Session"] }) r

/-- The assignment `result.total = result.failure + result.success` both
pull flows perform after their page loop. -/
def finalizeTotal (r : OCPIResult) : OCPIResult :=
  { r with total := r.failure + r.success }

/-- The `pullSessions` run: fold the page loop, then set
`result.total = result.failure + result.success`. -/
def pullSessionsRun (outcome : Nat → Bool) (pages : List (List Nat)) : OCPIResult :=
  finalizeTotal (pages.foldl (sessionsPageStep outcome) emptyResult)

/-- Per-page item loop of `pullCdrs`: `processCdr` succeeding or throwing. -/
def cdrsPageStep (outcome : Nat → Bool) (r : OCPIResult) (items : List Nat) : OCPIResult :=
  items.foldl (fun r it =>
    if outcome it then { r with success := r.success + 1 }
    else { r with failure := r.failure + 1,
                  logs := r.logs ++ ["Failed to update CDR"] }) r

/-- The `pullCdrs` run: fold the page loop, then set
`result.total = result.failure + result.success`. -/
def pullCdrsRun (outcome : Nat → Bool) (pages : List (List Nat)) : OCPIResult :=
  finalizeTotal (pages.foldl (cdrsPageStep outcome) emptyResult)

/-- Per-page item loop of `pushTokens`: `result.total++` for every token, then
`pushToken` succeeding increments `success`; throwing increments `failure`,
pushes the uid onto `objectIDsInFailure` and appends a log. -/
def tokensPageStep (outcome : String → Bool) (r : OCPIResult) (toks : List String) : OCPIResult :=
  toks.foldl (fun r uid =>
    let r := { r with total := r.total + 1 }
    if outcome uid then { r with success := r.success + 1 }
    else { r with failure := r.failure + 1,
                  objectIDsInFailure := r.objectIDsInFailure ++ [uid],
                  logs := r.logs ++ ["Failed to update Token"] }) r

/-- The `pushTokens` run over the pages of tokens from the skip-based storage pagination
(the loop ends on the first empty page). -/
def pushTokensRun (outcome : String → Bool) (pages : List (List String)) : OCPIResult :=
  pages.foldl (tokensPageStep outcome) emptyResult

/-- Left-to-right duplicate removal keeping first occurrences, as
`_.uniq` of lodash does. -/
def uniqAux (seen : List String) : List String → List String
  | [] => []
  | x :: xs => if x ∈ seen then uniqAux seen xs else x :: uniqAux (x :: seen) xs

def uniqFirst (l : List String) : List String := uniqAux [] l

/-- The summary persisted on the endpoint by `pushTokens`
(`lastPatchJobResult`): counters plus the deduplicated failing uids. -/
structure PatchJobResult where
  successNbr : Nat
  failureNbr : Nat
  totalNbr : Nat
  tokenIDsInFailure : List String
  deriving DecidableEq, Repr

def lastPatchJobResult (r : OCPIResult) : PatchJobResult :=
  { successNbr := r.success, failureNbr := r.failure, totalNbr := r.total,
    tokenIDsInFailure := uniqFirst r.objectIDsInFailure }

/-! ## Location reconciliation (EmspOCPIClient.processLocation)

Sites are resolved against the in-memory working set (`existingSites`,
fetched once at the start of a `pullLocations` run and grown on creation);
site areas are resolved against storage by `(siteID, name)`. EVSE upserts
and deletions touch charging-station storage, recorded here as events.
A missing EVSE uid (`!evse.uid`, i.e. an absent or empty string) throws a
`BackendError` out of `processLocation`. -/

/-- One EVSE of a remote location. The empty string models a missing or
falsy `uid`. `removed` models `status === OCPIEvseStatus.REMOVED`. -/
structure Evse where
  uid : String
  evseId : String
  removed : Bool
  deriving DecidableEq, Repr

/-- A remote OCPI location (the fields `processLocation` consumes). -/
structure OcpiLoc where
  id : String
  name : String
  operatorName : Option String
  evses : List Evse
  deriving DecidableEq, Repr

/-- Charging-station storage effects of the EVSE loop. -/
inductive LocEv where
  | deleteStation (uid : String)
  | upsertStation (uid : String)
  deriving DecidableEq, Repr

/-- The EVSE loop of `processLocation`: a missing uid throws (aborting the
rest of this location's EVSEs); a REMOVED EVSE deletes the matching local
station if one exists; otherwise the EVSE is upserted. Returns the effects
performed before any throw and whether a throw occurred. -/
def processEvses (stationExists : String → String → Bool) (locId : String) :
    List Evse → List LocEv × Bool
  | [] => ([], false)
  | e :: rest =>
    if e.uid = "" then ([], true)
    else if e.removed then
      let pre := if stationExists locId e.uid then [LocEv.deleteStation e.uid] else []
      let r := processEvses stationExists locId rest
      (pre ++ r.1, r.2)
    else
      let r := processEvses stationExists locId rest
      (LocEv.upsertStation e.uid :: r.1, r.2)

/-- A local Site (deterministic-name keyed mirror entity). -/
structure Site where
  id : Nat
  name : String
  deriving DecidableEq, Repr

/-- A local SiteArea, keyed by `(siteID, name)`. -/
structure SiteArea where
  id : Nat
  siteID : Nat
  name : String
  deriving DecidableEq, Repr

/-- Entity state threaded through a `pullLocations` run: persisted sites and
site areas, the in-memory working set of sites, and the id generator of the
storage layer. -/
structure ReconState where
  storedSites : List Site
  storedAreas : List SiteArea
  existingSites : List Site
  nextId : Nat
  deriving DecidableEq, Repr

/-- Endpoint-side inputs of `processLocation`: the country/party codes used
for the fallback operator name, and the charging-station lookup used by the
REMOVED branch. -/
structure LocEnv where
  countryCode : String
  partyId : String
  stationExists : String → String → Bool

/-- Helper `OCPIUtils.buildOperatorName` (outside src; an endpoint-derived
deterministic name). -/
def buildOperatorName (countryCode partyId : String) : String :=
  countryCode ++ "*" ++ partyId

/-- Constant `Constants.OCPI_SEPARATOR` (outside src; its exact text is
irrelevant to the claims, only that it is fixed). -/
def OCPI_SEPARATOR : String := "*"

/-- The site name `processLocation` keys on: the location's operator name,
or the endpoint-derived fallback. -/
def siteNameOf (lenv : LocEnv) (loc : OcpiLoc) : String :=
  match loc.operatorName with
  | some n => n
  | none => buildOperatorName lenv.countryCode lenv.partyId

/-- Site resolution: find by name in the working set; otherwise create,
persist, and push onto the working set. -/
def processLocSite (siteName : String) (st : ReconState) : Site × ReconState :=
  match st.existingSites.find? (fun s => s.name = siteName) with
  | some site => (site, st)
  | none =>
    let site : Site := { id := st.nextId, name := siteName }
    (site, { st with storedSites := st.storedSites ++ [site],
                     existingSites := st.existingSites ++ [site],
                     nextId := st.nextId + 1 })

/-- The site-area name `siteName + separator + remote location id`. -/
def areaNameOf (site : Site) (locId : String) : String :=
  site.name ++ OCPI_SEPARATOR ++ locId

/-- Site-area resolution: query storage by `(siteID, name)`; otherwise
create and persist. -/
def processLocArea (site : Site) (locId : String) (st : ReconState) : SiteArea × ReconState :=
  match st.storedAreas.find? (fun a => a.siteID = site.id ∧ a.name = areaNameOf site locId) with
  | some area => (area, st)
  | none =>
    let area : SiteArea := { id := st.nextId, siteID := site.id, name := areaNameOf site locId }
    (area, { st with storedAreas := st.storedAreas ++ [area], nextId := st.nextId + 1 })

/-- The whole `processLocation`: resolve/create the Site and SiteArea, then run the
EVSE loop. Returns the state after the site/area steps (which happen before
any EVSE throw), the station effects, and whether the location raised. -/
def processLocation (lenv : LocEnv) (loc : OcpiLoc) (st : ReconState) :
    ReconState × List LocEv × Bool :=
  let p := processLocSite (siteNameOf lenv loc) st
  let q := processLocArea p.1 loc.id p.2
  let r := processEvses lenv.stationExists loc.id loc.evses
  (q.2, r.1, r.2)

/-- The site-and-area part of `processLocation` alone (the entity-creation
state transformer). -/
def reconcileLoc (lenv : LocEnv) (loc : OcpiLoc) (st : ReconState) : ReconState :=
  (processLocArea (processLocSite (siteNameOf lenv loc) st).1 loc.id
    (processLocSite (siteNameOf lenv loc) st).2).2

/-- One iteration of the sequential location loop of `pullLocations`: a
location whose processing throws is caught there, counted as one failure
with a log; otherwise `success` is incremented. -/
def pullLocationsStep (lenv : LocEnv) (acc : OCPIResult × ReconState) (loc : OcpiLoc) :
    OCPIResult × ReconState :=
  let p := processLocation lenv loc acc.2
  if p.2.2 then
    ({ acc.1 with failure := acc.1.failure + 1,
                  logs := acc.1.logs ++ ["Failed to update Location"] }, p.1)
  else
    ({ acc.1 with success := acc.1.success + 1 }, p.1)

/-- The `pullLocations` run: fold the sequential location loop over the fetched
pages. The returned summary's `total` field is never written (it keeps its
initial value 0). -/
def pullLocationsRun (lenv : LocEnv) (pages : List (List OcpiLoc)) (st0 : ReconState) :
    OCPIResult × ReconState :=
  pages.foldl (fun acc page => page.foldl (pullLocationsStep lenv) acc) (emptyResult, st0)

/-! ## EmspOCPIClient constructor -/

/-- OCPI protocol roles. -/
inductive OCPIRole where
  | cpo
  | emsp
  deriving DecidableEq, Repr

/-- The roaming-endpoint configuration consumed by the constructor. -/
structure OCPIEndpointCfg where
  role : OCPIRole
  countryCode : String
  partyId : String
  token : String
  deriving DecidableEq, Repr

/-- The constructed client. The base-class constructor (outside src) stores
the endpoint; nothing in the spec makes it fail for the constant role
`EMSP` the subclass passes it. -/
structure EmspOCPIClient where
  endpoint : OCPIEndpointCfg
  deriving DecidableEq, Repr

/-- The constructor of `EmspOCPIClient`: after the base call, an endpoint whose
role is not `EMSP` raises a structured `BackendError`. -/
def mkEmspOCPIClient (endpoint : OCPIEndpointCfg) : Except String EmspOCPIClient :=
  if endpoint.role ≠ OCPIRole.emsp then
    Except.error "EmspOCPIClient requires OCPI Endpoint with role EMSP"
  else
    Except.ok { endpoint := endpoint }

/-! ## Concrete fixtures used to evaluate the definitions -/

/-- A re-fetched transaction whose CDR was already pushed by a racing
process. -/
def txRaced : Transaction :=
  { id := 1, chargeBoxID := 7, tagID := 9,
    ocpiData := some { session := some 2, cdr := some 5 } }

/-- A run where transaction 1 is a candidate (its stored document still has
no CDR) but the re-fetched transaction already carries one. -/
def envRaced : TaskEnv :=
  { ocpiActive := true, tenantLockAvail := true, queryFails := false,
    txDocs := [{ id := 1, hasStop := true, ocpiData := some { session := some 2, cdr := none } }],
    txLockAvail := fun _ => true,
    getTransaction := fun t => if t = 1 then some txRaced else none,
    chargingStationExists := fun _ => true,
    tagExists := fun _ => true,
    roamingOutcome := fun _ => Except.ok { session := some 2, cdr := some 5 } }

/-- A run whose tenant-wide lock is held elsewhere. -/
def envTenantLocked : TaskEnv :=
  { envRaced with tenantLockAvail := false }

/-- A location with one well-formed EVSE. -/
def locSimple : OcpiLoc :=
  { id := "LOC1", name := "Location One", operatorName := some "Operator A",
    evses := [{ uid := "EV1", evseId := "FR*A*E*EV1", removed := false }] }

/-- A location whose first EVSE misses its uid and whose second is
well-formed. -/
def locBadFirstEvse : OcpiLoc :=
  { id := "LOC2", name := "Location Two", operatorName := some "Operator A",
    evses := [{ uid := "", evseId := "FR*A*E*E1", removed := false },
              { uid := "u2", evseId := "FR*A*E*E2", removed := false }] }

/-- Endpoint-side inputs with no pre-existing charging stations. -/
def lenvSimple : LocEnv :=
  { countryCode := "FR", partyId := "ABC", stationExists := fun _ _ => false }

/-- The empty entity state at the start of a first run. -/
def reconEmpty : ReconState :=
  { storedSites := [], storedAreas := [], existingSites := [], nextId := 0 }

/-- A well-formed EVSE processed before the broken one. -/
def evGood1 : Evse := { uid := "u1", evseId := "FR*A*E*E1", removed := false }

/-- An EVSE with a missing (falsy) uid. -/
def evBad : Evse := { uid := "", evseId := "FR*A*E*E0", removed := false }

/-- A well-formed EVSE listed after the broken one. -/
def evGood2 : Evse := { uid := "u2", evseId := "FR*A*E*E2", removed := false }

/-! # Theorems -/

/-! ## Helper lemmas about the CDR-push task model -/

theorem txLoop_append (env : TaskEnv) (l1 l2 : List Nat) :
    txLoop env (l1 ++ l2) = txLoop env l1 ++ txLoop env l2 := by
  induction l1 with
  | nil => simp [txLoop]
  | cons t ts ih => simp [txLoop, ih]

theorem mem_processOneTxBody {env : TaskEnv} {t : Nat} {e : Ev}
    (h : e ∈ processOneTxBody env t) :
    e = Ev.logSkip t ∨ e = Ev.finalize t ∨ e = Ev.persist t ∨ e = Ev.logFail t := by
  unfold processOneTxBody at h
  repeat' split at h
  all_goals simp at h
  all_goals tauto

theorem mem_processOneTx {env : TaskEnv} {t : Nat} {e : Ev}
    (h : e ∈ processOneTx env t) :
    e = Ev.acqTx t ∨ e = Ev.relTx t ∨ e ∈ processOneTxBody env t := by
  unfold processOneTx at h
  split at h
  · simp at h
    tauto
  · simp at h

theorem mem_txLoop_body {env : TaskEnv} {t : Nat} {e : Ev}
    (he : e = Ev.finalize t ∨ e = Ev.persist t) :
    ∀ {ts : List Nat}, e ∈ txLoop env ts → e ∈ processOneTxBody env t := by
  intro ts
  induction ts with
  | nil => intro h; simp [txLoop] at h
  | cons a ts ih =>
    intro h
    simp only [txLoop, List.mem_append] at h
    rcases h with h | h
    · rcases mem_processOneTx h with h1 | h1 | h1
      · rcases he with he | he <;> simp [he] at h1
      · rcases he with he | he <;> simp [he] at h1
      · rcases he with he | he <;> subst he
        · rcases mem_processOneTxBody h1 with h2 | h2 | h2 | h2
          · simp at h2
          · have h3 : t = a := by
              injection h2
            subst h3
            exact h1
          · simp at h2
          · simp at h2
        · rcases mem_processOneTxBody h1 with h2 | h2 | h2 | h2
          · simp at h2
          · simp at h2
          · have h3 : t = a := by
              injection h2
            subst h3
            exact h1
          · simp at h2
    · exact ih h

theorem body_of_cdr_present {env : TaskEnv} {t : Nat} {tx : Transaction}
    (hget : env.getTransaction t = some tx)
    (hcdr : (tx.ocpiData.bind OcpiData.cdr).isSome = true) :
    processOneTxBody env t = [Ev.logSkip t] := by
  unfold processOneTxBody
  rw [hget]
  simp [hcdr]

theorem processTenant_trace (env : TaskEnv) :
    (processTenant env).1 = [] ∨
    (processTenant env).1 = [Ev.acqTenant, Ev.relTenant, Ev.logTopError] ∨
    (processTenant env).1 = Ev.acqTenant :: txLoop env (candidateTxs env) ++ [Ev.relTenant] := by
  unfold processTenant runBody
  by_cases h1 : env.ocpiActive <;> by_cases h2 : env.tenantLockAvail <;>
    by_cases h3 : env.queryFails <;> simp [h1, h2, h3]

/-! ## C1 -/

/-- C1: in the CDR-push scheduled task, a transaction whose re-fetched
record already carries `ocpiData.cdr` triggers no roaming-finalize call and
no persist anywhere in the run: it is logged and skipped, its stored state
untouched. -/
theorem c1_cdr_present_no_push (env : TaskEnv) (t : Nat) (tx : Transaction)
    (hget : env.getTransaction t = some tx)
    (hcdr : (tx.ocpiData.bind OcpiData.cdr).isSome = true) :
    Ev.finalize t ∉ (processTenant env).1 ∧ Ev.persist t ∉ (processTenant env).1 := by
  have hbody := body_of_cdr_present hget hcdr
  have key : ∀ e : Ev, (e = Ev.finalize t ∨ e = Ev.persist t) → e ∉ (processTenant env).1 := by
    intro e he hmem
    rcases processTenant_trace env with h | h | h <;> rw [h] at hmem
    · simp at hmem
    · rcases he with he | he <;> simp [he] at hmem
    · simp only [List.cons_append, List.mem_cons, List.mem_append] at hmem
      rcases hmem with hmem | hmem | hmem
      · rcases he with he | he <;> simp [he] at hmem
      · have := mem_txLoop_body he hmem
        rw [hbody] at this
        rcases he with he | he <;> simp [he] at this
      · rcases he with he | he <;> simp [he] at hmem
  exact ⟨key _ (Or.inl rfl), key _ (Or.inr rfl)⟩

/-- C1 witness: the racing fixture evaluated. -/
theorem c1_witness :
    Ev.finalize 1 ∉ (processTenant envRaced).1 ∧ Ev.persist 1 ∉ (processTenant envRaced).1 :=
  c1_cdr_present_no_push envRaced 1 txRaced (by rfl) (by rfl)

/-! ## C4 -/

/-- C4: the page-fetch loop of the pull flows stops after the page whose
response has no next link (absent or empty) or whose next link equals the
URL just fetched, and follows the next link otherwise; the sequence
u1 → u2 → u3 → (no next) yields exactly those three pages, and a
self-referential next yields exactly the first page. -/
theorem c4_pagination_terminates :
    (∀ (fetch : String → OcpiPage) (url : String) (fuel : Nat),
      ((fetch url).next = none ∨ (fetch url).next = some "" ∨ (fetch url).next = some url) →
        fetchPages fetch (fuel + 1) url = [fetch url])
    ∧ (∀ (fetch : String → OcpiPage) (url nu : String) (fuel : Nat),
        (fetch url).next = some nu → 0 < nu.length → nu ≠ url →
          fetchPages fetch (fuel + 1) url = fetch url :: fetchPages fetch fuel nu)
    ∧ fetchPages fetchThree 9 "u1" =
        [{ data := [1], next := some "u2" }, { data := [2], next := some "u3" },
         { data := [3], next := none }]
    ∧ fetchPages fetchSelf 9 "u1" = [{ data := [1], next := some "u1" }] := by
  refine ⟨?_, ?_, ?_, ?_⟩
  · intro fetch url fuel h
    rcases h with h | h | h <;> simp [fetchPages, h]
  · intro fetch url nu fuel h hlen hne
    simp [fetchPages, h, hlen, hne]
  · rfl
  · rfl

/-- C4 witness: the exit-condition branch applied to the final page of the
three-page sequence. -/
theorem c4_witness : fetchPages fetchThree 6 "u3" = [{ data := [3], next := none }] :=
  c4_pagination_terminates.1 fetchThree "u3" 5 (Or.inl rfl)

/-! ## C5 -/

/-- C5: in the CDR-push scheduled task an unavailable lock is never an
error: an unavailable tenant-wide lock makes the run process zero
transactions and raise nothing, and an unavailable per-transaction lock
skips exactly that candidate while the loop continues with the rest. -/
theorem c5_lock_unavailable_skips :
    (∀ env : TaskEnv, env.tenantLockAvail = false → processTenant env = ([], none))
    ∧ (∀ (env : TaskEnv) (t : Nat), env.txLockAvail t = false → processOneTx env t = [])
    ∧ (∀ (env : TaskEnv) (t : Nat) (l1 l2 : List Nat), env.txLockAvail t = false →
        txLoop env (l1 ++ t :: l2) = txLoop env l1 ++ txLoop env l2) := by
  refine ⟨?_, ?_, ?_⟩
  · intro env h
    unfold processTenant runBody
    by_cases h1 : env.ocpiActive <;> simp [h1, h]
  · intro env t h
    unfold processOneTx
    simp [h]
  · intro env t l1 l2 h
    rw [txLoop_append]
    simp [txLoop, processOneTx, h]

/-- C5 witness: the fixture whose tenant-wide lock is held elsewhere. -/
theorem c5_witness : processTenant envTenantLocked = ([], none) :=
  c5_lock_unavailable_skips.1 envTenantLocked rfl

/-! ## C6 -/

theorem count_processOneTxBody_eq_zero (env : TaskEnv) (a : Nat) (e : Ev)
    (he : ∀ t : Nat, e ≠ Ev.logSkip t ∧ e ≠ Ev.finalize t ∧ e ≠ Ev.persist t ∧ e ≠ Ev.logFail t) :
    (processOneTxBody env a).count e = 0 := by
  rw [List.count_eq_zero]
  intro hmem
  rcases mem_processOneTxBody hmem with h | h | h | h
  · exact (he a).1 h
  · exact (he a).2.1 h
  · exact (he a).2.2.1 h
  · exact (he a).2.2.2 h

theorem processOneTx_count_balanced (env : TaskEnv) (a t : Nat) :
    (processOneTx env a).count (Ev.acqTx t) = (processOneTx env a).count (Ev.relTx t) := by
  unfold processOneTx
  split
  · have h1 : (processOneTxBody env a).count (Ev.acqTx t) = 0 :=
      count_processOneTxBody_eq_zero env a _ (by intro s; refine ⟨?_, ?_, ?_, ?_⟩ <;> simp)
    have h2 : (processOneTxBody env a).count (Ev.relTx t) = 0 :=
      count_processOneTxBody_eq_zero env a _ (by intro s; refine ⟨?_, ?_, ?_, ?_⟩ <;> simp)
    by_cases hat : t = a
    · subst hat
      simp [List.count_cons, List.count_append, h1, h2]
    · simp [List.count_cons, List.count_append, h1, h2, hat]
  · simp

theorem txLoop_count_balanced (env : TaskEnv) (ts : List Nat) (t : Nat) :
    (txLoop env ts).count (Ev.acqTx t) = (txLoop env ts).count (Ev.relTx t) := by
  induction ts with
  | nil => simp [txLoop]
  | cons a ts ih =>
    simp only [txLoop, List.count_append, ih, processOneTx_count_balanced]

theorem tenant_events_not_in_txLoop (env : TaskEnv) (ts : List Nat) (e : Ev)
    (he : ∀ t : Nat, e ≠ Ev.acqTx t ∧ e ≠ Ev.relTx t ∧
      e ≠ Ev.logSkip t ∧ e ≠ Ev.finalize t ∧ e ≠ Ev.persist t ∧ e ≠ Ev.logFail t) :
    e ∉ txLoop env ts := by
  induction ts with
  | nil => simp [txLoop]
  | cons a ts ih =>
    simp only [txLoop, List.mem_append]
    rintro (h | h)
    · rcases mem_processOneTx h with h1 | h1 | h1
      · exact (he a).1 h1
      · exact (he a).2.1 h1
      · rcases mem_processOneTxBody h1 with h2 | h2 | h2 | h2
        · exact (he a).2.2.1 h2
        · exact (he a).2.2.2.1 h2
        · exact (he a).2.2.2.2.1 h2
        · exact (he a).2.2.2.2.2 h2
    · exact ih h

/-- C6: in the CDR-push scheduled task every successfully acquired lock is
released exactly once on every execution path: in every run trace the
per-transaction acquire and release counts match for every transaction, and
the tenant-wide acquire and release counts match, including the path where
the candidate query raises. -/
theorem c6_locks_released_once (env : TaskEnv) :
    (processTenant env).1.count Ev.acqTenant = (processTenant env).1.count Ev.relTenant
    ∧ ∀ t : Nat, (processTenant env).1.count (Ev.acqTx t) = (processTenant env).1.count (Ev.relTx t) := by
  rcases processTenant_trace env with h | h | h <;> rw [h]
  · simp
  · refine ⟨by decide, ?_⟩
    intro t
    simp [List.count_cons]
  · constructor
    · have h1 : Ev.acqTenant ∉ txLoop env (candidateTxs env) :=
        tenant_events_not_in_txLoop env _ _ (by intro s; refine ⟨?_, ?_, ?_, ?_, ?_, ?_⟩ <;> simp)
      have h2 : Ev.relTenant ∉ txLoop env (candidateTxs env) :=
        tenant_events_not_in_txLoop env _ _ (by intro s; refine ⟨?_, ?_, ?_, ?_, ?_, ?_⟩ <;> simp)
      have h1c : List.count Ev.acqTenant (txLoop env (candidateTxs env)) = 0 :=
        List.count_eq_zero.2 h1
      have h2c : List.count Ev.relTenant (txLoop env (candidateTxs env)) = 0 :=
        List.count_eq_zero.2 h2
      simp [List.count_cons, List.count_append, h1c, h2c]
    · intro t
      simp [List.count_cons, List.count_append, txLoop_count_balanced]

/-! ## C7 -/

/-- C7: `processTenant` never propagates an exception to the scheduler: the
error component of the run is `none` for every environment, including those
whose candidate query or roaming call raises. -/
theorem c7_never_propagates (env : TaskEnv) : (processTenant env).2 = none := by
  unfold processTenant
  rcases hr : runBody env with ⟨tr, err⟩
  cases err <;> simp

/-! ## C8 -/

/-- C8: the candidate query of the CDR-push task selects exactly the
transactions that are finished (have a stop), carry roaming data
(`ocpiData` exists), and whose `ocpiData.cdr` is still absent. -/
theorem c8_candidate_selection (env : TaskEnv) (t : Nat) :
    t ∈ candidateTxs env ↔
      ∃ d ∈ env.txDocs, d.id = t ∧ d.hasStop = true ∧
        ∃ od, d.ocpiData = some od ∧ od.cdr = none := by
  unfold candidateTxs
  simp only [List.mem_map, List.mem_filter]
  constructor
  · rintro ⟨d, ⟨hd, hcond⟩, hid⟩
    simp only [Bool.and_eq_true] at hcond
    refine ⟨d, hd, hid, hcond.1.1, ?_⟩
    rcases hod : d.ocpiData with _ | od
    · rw [hod] at hcond
      simp at hcond
    · refine ⟨od, rfl, ?_⟩
      rw [hod] at hcond
      simpa [Option.isNone_iff_eq_none] using hcond.2
  · rintro ⟨d, hd, hid, hstop, od, hod, hcdr⟩
    exact ⟨d, ⟨hd, by simp [hstop, hod, hcdr]⟩, hid⟩

/-! ## Helper lemmas about the sync-flow aggregation -/

theorem countP_add_countP_not (p : α → Bool) (l : List α) :
    l.countP p + l.countP (fun a => !p a) = l.length := by
  induction l with
  | nil => simp
  | cons a l ih =>
    by_cases h : p a = true <;> simp [List.countP_cons, h] <;> omega

theorem sessionsPageStep_spec (outcome : Nat → Bool) :
    ∀ (items : List Nat) (r : OCPIResult),
      (sessionsPageStep outcome r items).success = r.success + items.countP outcome
      ∧ (sessionsPageStep outcome r items).failure = r.failure + items.countP (fun i => !outcome i)
      ∧ (sessionsPageStep outcome r items).total = r.total := by
  intro items
  induction items with
  | nil => intro r; simp [sessionsPageStep]
  | cons a l ih =>
    intro r
    have hstep : sessionsPageStep outcome r (a :: l)
        = sessionsPageStep outcome
            (if outcome a then { r with success := r.success + 1 }
             else { r with
                    failure := r.failure + 1,
                    logs := r.logs ++ ["Failed to update OCPI Session"] }) l := rfl
    rw [hstep]
    by_cases h : outcome a = true
    · rw [if_pos h]
      rcases ih { r with success := r.success + 1 } with ⟨h1, h2, h3⟩
      rw [h1, h2, h3]
      refine ⟨?_, ?_, ?_⟩
      all_goals simp [List.countP_cons, h]
      all_goals omega
    · rw [if_neg h]
      rcases ih { r with
                  failure := r.failure + 1,
                  logs := r.logs ++ ["Failed to update OCPI Session"] } with ⟨h1, h2, h3⟩
      rw [h1, h2, h3]
      refine ⟨?_, ?_, ?_⟩
      all_goals simp [List.countP_cons, h]
      all_goals omega

theorem cdrsPageStep_spec (outcome : Nat → Bool) :
    ∀ (items : List Nat) (r : OCPIResult),
      (cdrsPageStep outcome r items).success = r.success + items.countP outcome
      ∧ (cdrsPageStep outcome r items).failure = r.failure + items.countP (fun i => !outcome i)
      ∧ (cdrsPageStep outcome r items).total = r.total := by
  intro items
  induction items with
  | nil => intro r; simp [cdrsPageStep]
  | cons a l ih =>
    intro r
    have hstep : cdrsPageStep outcome r (a :: l)
        = cdrsPageStep outcome
            (if outcome a then { r with success := r.success + 1 }
             else { r with
                    failure := r.failure + 1,
                    logs := r.logs ++ ["Failed to update CDR"] }) l := rfl
    rw [hstep]
    by_cases h : outcome a = true
    · rw [if_pos h]
      rcases ih { r with success := r.success + 1 } with ⟨h1, h2, h3⟩
      rw [h1, h2, h3]
      refine ⟨?_, ?_, ?_⟩
      all_goals simp [List.countP_cons, h]
      all_goals omega
    · rw [if_neg h]
      rcases ih { r with
                  failure := r.failure + 1,
                  logs := r.logs ++ ["Failed to update CDR"] } with ⟨h1, h2, h3⟩
      rw [h1, h2, h3]
      refine ⟨?_, ?_, ?_⟩
      all_goals simp [List.countP_cons, h]
      all_goals omega

theorem sessionsFold_spec (outcome : Nat → Bool) :
    ∀ (pages : List (List Nat)) (r : OCPIResult),
      (pages.foldl (sessionsPageStep outcome) r).success
          = r.success + pages.flatten.countP outcome
      ∧ (pages.foldl (sessionsPageStep outcome) r).failure
          = r.failure + pages.flatten.countP (fun i => !outcome i)
      ∧ (pages.foldl (sessionsPageStep outcome) r).total = r.total := by
  intro pages
  induction pages with
  | nil => intro r; simp
  | cons pg pages ih =>
    intro r
    rw [List.foldl_cons]
    rcases ih (sessionsPageStep outcome r pg) with ⟨h1, h2, h3⟩
    rcases sessionsPageStep_spec outcome pg r with ⟨g1, g2, g3⟩
    rw [h1, h2, h3, g1, g2, g3]
    refine ⟨?_, ?_, rfl⟩ <;> rw [List.flatten_cons, List.countP_append] <;> omega

theorem cdrsFold_spec (outcome : Nat → Bool) :
    ∀ (pages : List (List Nat)) (r : OCPIResult),
      (pages.foldl (cdrsPageStep outcome) r).success
          = r.success + pages.flatten.countP outcome
      ∧ (pages.foldl (cdrsPageStep outcome) r).failure
          = r.failure + pages.flatten.countP (fun i => !outcome i)
      ∧ (pages.foldl (cdrsPageStep outcome) r).total = r.total := by
  intro pages
  induction pages with
  | nil => intro r; simp
  | cons pg pages ih =>
    intro r
    rw [List.foldl_cons]
    rcases ih (cdrsPageStep outcome r pg) with ⟨h1, h2, h3⟩
    rcases cdrsPageStep_spec outcome pg r with ⟨g1, g2, g3⟩
    rw [h1, h2, h3, g1, g2, g3]
    refine ⟨?_, ?_, rfl⟩ <;> rw [List.flatten_cons, List.countP_append] <;> omega

theorem tokensPageStep_spec (outcome : String → Bool) :
    ∀ (toks : List String) (r : OCPIResult),
      (tokensPageStep outcome r toks).total = r.total + toks.length
      ∧ (tokensPageStep outcome r toks).success = r.success + toks.countP outcome
      ∧ (tokensPageStep outcome r toks).failure = r.failure + toks.countP (fun u => !outcome u)
      ∧ (tokensPageStep outcome r toks).objectIDsInFailure
          = r.objectIDsInFailure ++ toks.filter (fun u => !outcome u) := by
  intro toks
  induction toks with
  | nil => intro r; simp [tokensPageStep]
  | cons a l ih =>
    intro r
    have hstep : tokensPageStep outcome r (a :: l)
        = tokensPageStep outcome
            (if outcome a then { r with total := r.total + 1, success := r.success + 1 }
             else { r with
                    total := r.total + 1,
                    failure := r.failure + 1,
                    objectIDsInFailure := r.objectIDsInFailure ++ [a],
                    logs := r.logs ++ ["Failed to update Token"] }) l := rfl
    rw [hstep]
    by_cases h : outcome a = true
    · rw [if_pos h]
      rcases ih { r with total := r.total + 1, success := r.success + 1 } with ⟨h1, h2, h3, h4⟩
      rw [h1, h2, h3, h4]
      refine ⟨?_, ?_, ?_, ?_⟩
      all_goals simp [List.countP_cons, List.filter_cons, h]
      all_goals omega
    · rw [if_neg h]
      rcases ih { r with
                  total := r.total + 1,
                  failure := r.failure + 1,
                  objectIDsInFailure := r.objectIDsInFailure ++ [a],
                  logs := r.logs ++ ["Failed to update Token"] } with ⟨h1, h2, h3, h4⟩
      rw [h1, h2, h3, h4]
      refine ⟨?_, ?_, ?_, ?_⟩
      all_goals simp [List.countP_cons, List.filter_cons, h]
      all_goals omega

theorem tokensFold_spec (outcome : String → Bool) :
    ∀ (pages : List (List String)) (r : OCPIResult),
      (pages.foldl (tokensPageStep outcome) r).total = r.total + pages.flatten.length
      ∧ (pages.foldl (tokensPageStep outcome) r).success = r.success + pages.flatten.countP outcome
      ∧ (pages.foldl (tokensPageStep outcome) r).failure
          = r.failure + pages.flatten.countP (fun u => !outcome u)
      ∧ (pages.foldl (tokensPageStep outcome) r).objectIDsInFailure
          = r.objectIDsInFailure ++ pages.flatten.filter (fun u => !outcome u) := by
  intro pages
  induction pages with
  | nil => intro r; simp
  | cons pg pages ih =>
    intro r
    rw [List.foldl_cons]
    rcases ih (tokensPageStep outcome r pg) with ⟨h1, h2, h3, h4⟩
    rcases tokensPageStep_spec outcome pg r with ⟨g1, g2, g3, g4⟩
    rw [h1, h2, h3, h4, g1, g2, g3, g4]
    refine ⟨?_, ?_, ?_, ?_⟩
    · rw [List.flatten_cons, List.length_append]; omega
    · rw [List.flatten_cons, List.countP_append]; omega
    · rw [List.flatten_cons, List.countP_append]; omega
    · rw [List.flatten_cons, List.filter_append, List.append_assoc]

theorem mem_uniqAux {x : String} :
    ∀ (seen l : List String), x ∈ uniqAux seen l ↔ (x ∈ l ∧ x ∉ seen) := by
  intro seen l
  induction l generalizing seen with
  | nil => simp [uniqAux]
  | cons a l ih =>
    by_cases h : a ∈ seen
    · rw [uniqAux, if_pos h, ih]
      constructor
      · rintro ⟨hl, hs⟩
        exact ⟨List.mem_cons_of_mem _ hl, hs⟩
      · rintro ⟨hl, hs⟩
        rcases List.mem_cons.1 hl with rfl | hl
        · exact absurd h hs
        · exact ⟨hl, hs⟩
    · rw [uniqAux, if_neg h]
      simp only [List.mem_cons, ih]
      constructor
      · rintro (rfl | ⟨hl, hs⟩)
        · exact ⟨Or.inl rfl, h⟩
        · exact ⟨Or.inr hl, fun hx => hs (Or.inr hx)⟩
      · rintro ⟨rfl | hl, hs⟩
        · exact Or.inl rfl
        · by_cases hxa : x = a
          · exact Or.inl hxa
          · exact Or.inr ⟨hl, by simp [hxa, hs]⟩

theorem nodup_uniqAux : ∀ (seen l : List String), (uniqAux seen l).Nodup := by
  intro seen l
  induction l generalizing seen with
  | nil => simp [uniqAux]
  | cons a l ih =>
    by_cases h : a ∈ seen
    · rw [uniqAux, if_pos h]
      exact ih seen
    · rw [uniqAux, if_neg h]
      refine List.nodup_cons.2 ⟨?_, ih _⟩
      intro hmem
      rcases (mem_uniqAux _ _).1 hmem with ⟨-, hna⟩
      exact hna (List.mem_cons_self a seen)

theorem pullLocationsStep_total (lenv : LocEnv) (acc : OCPIResult × ReconState) (loc : OcpiLoc) :
    (pullLocationsStep lenv acc loc).1.total = acc.1.total
    ∧ (pullLocationsStep lenv acc loc).1.success + (pullLocationsStep lenv acc loc).1.failure
        = acc.1.success + acc.1.failure + 1 := by
  by_cases h : (processLocation lenv loc acc.2).2.2 = true <;>
    simp [pullLocationsStep, h] <;> omega

theorem locPageFold_spec (lenv : LocEnv) :
    ∀ (locs : List OcpiLoc) (acc : OCPIResult × ReconState),
      (locs.foldl (pullLocationsStep lenv) acc).1.total = acc.1.total
      ∧ (locs.foldl (pullLocationsStep lenv) acc).1.success
          + (locs.foldl (pullLocationsStep lenv) acc).1.failure
          = acc.1.success + acc.1.failure + locs.length := by
  intro locs
  induction locs with
  | nil => intro acc; simp
  | cons loc locs ih =>
    intro acc
    rw [List.foldl_cons]
    rcases ih (pullLocationsStep lenv acc loc) with ⟨h1, h2⟩
    rcases pullLocationsStep_total lenv acc loc with ⟨g1, g2⟩
    refine ⟨by rw [h1, g1], ?_⟩
    rw [h2, g2, List.length_cons]
    omega

theorem locRun_spec (lenv : LocEnv) :
    ∀ (pages : List (List OcpiLoc)) (acc : OCPIResult × ReconState),
      (pages.foldl (fun acc page => page.foldl (pullLocationsStep lenv) acc) acc).1.total
          = acc.1.total
      ∧ (pages.foldl (fun acc page => page.foldl (pullLocationsStep lenv) acc) acc).1.success
          + (pages.foldl (fun acc page => page.foldl (pullLocationsStep lenv) acc) acc).1.failure
          = acc.1.success + acc.1.failure + pages.flatten.length := by
  intro pages
  induction pages with
  | nil => intro acc; simp
  | cons pg pages ih =>
    intro acc
    rw [List.foldl_cons]
    rcases ih (pg.foldl (pullLocationsStep lenv) acc) with ⟨h1, h2⟩
    rcases locPageFold_spec lenv pg acc with ⟨g1, g2⟩
    refine ⟨by rw [h1, g1], ?_⟩
    rw [h2, g2, List.flatten_cons, List.length_append]
    omega

theorem emptyResult_success : emptyResult.success = 0 := rfl

theorem emptyResult_failure : emptyResult.failure = 0 := rfl

theorem emptyResult_total : emptyResult.total = 0 := rfl

theorem emptyResult_ids : emptyResult.objectIDsInFailure = [] := rfl

theorem finalizeTotal_success (r : OCPIResult) : (finalizeTotal r).success = r.success := rfl

theorem finalizeTotal_failure (r : OCPIResult) : (finalizeTotal r).failure = r.failure := rfl

theorem finalizeTotal_total (r : OCPIResult) : (finalizeTotal r).total = r.failure + r.success := rfl

/-! ## C2 -/

/-- C2 counterexample: one page with one successfully processed location
gives a `pullLocations` summary with `success + failure = 1` but
`total = 0`, so the returned summary violates `total = success + failure`. -/
theorem c2_counterexample :
    (pullLocationsRun lenvSimple [[locSimple]] reconEmpty).1.success
        + (pullLocationsRun lenvSimple [[locSimple]] reconEmpty).1.failure = 1
    ∧ (pullLocationsRun lenvSimple [[locSimple]] reconEmpty).1.total ≠
        (pullLocationsRun lenvSimple [[locSimple]] reconEmpty).1.success
          + (pullLocationsRun lenvSimple [[locSimple]] reconEmpty).1.failure := by
  decide

/-- C2 (amended): `pullSessions`, `pullCdrs` and `pushTokens` return a
summary with `total = success + failure` counting exactly the N processed
items; `pullLocations` settles each of its N locations into
`success + failure = N` but returns `total = 0`, never writing the field.
The deduplicated failed-resource-id set (exactly the distinct failing ids,
duplicates collapsed) is produced only in the endpoint summary persisted by
`pushTokens` (`tokenIDsInFailure`); the returned `objectIDsInFailure` keeps
duplicates and the pull flows leave it empty. -/
theorem c2_amended_aggregation :
    (∀ (outcome : Nat → Bool) (pages : List (List Nat)),
      (pullSessionsRun outcome pages).total
          = (pullSessionsRun outcome pages).success + (pullSessionsRun outcome pages).failure
      ∧ (pullSessionsRun outcome pages).success + (pullSessionsRun outcome pages).failure
          = pages.flatten.length)
    ∧ (∀ (outcome : Nat → Bool) (pages : List (List Nat)),
      (pullCdrsRun outcome pages).total
          = (pullCdrsRun outcome pages).success + (pullCdrsRun outcome pages).failure
      ∧ (pullCdrsRun outcome pages).success + (pullCdrsRun outcome pages).failure
          = pages.flatten.length)
    ∧ (∀ (outcome : String → Bool) (pages : List (List String)),
      (pushTokensRun outcome pages).total
          = (pushTokensRun outcome pages).success + (pushTokensRun outcome pages).failure
      ∧ (pushTokensRun outcome pages).total = pages.flatten.length
      ∧ (lastPatchJobResult (pushTokensRun outcome pages)).tokenIDsInFailure.Nodup
      ∧ ∀ x, x ∈ (lastPatchJobResult (pushTokensRun outcome pages)).tokenIDsInFailure
          ↔ x ∈ pages.flatten.filter (fun u => !outcome u))
    ∧ (∀ (lenv : LocEnv) (pages : List (List OcpiLoc)) (st0 : ReconState),
      (pullLocationsRun lenv pages st0).1.total = 0
      ∧ (pullLocationsRun lenv pages st0).1.success + (pullLocationsRun lenv pages st0).1.failure
          = pages.flatten.length) := by
  refine ⟨?_, ?_, ?_, ?_⟩
  · intro outcome pages
    rcases sessionsFold_spec outcome pages emptyResult with ⟨h1, h2, -⟩
    rw [emptyResult_success] at h1
    rw [emptyResult_failure] at h2
    have key := countP_add_countP_not outcome pages.flatten
    unfold pullSessionsRun
    rw [finalizeTotal_total, finalizeTotal_success, finalizeTotal_failure, h1, h2]
    omega
  · intro outcome pages
    rcases cdrsFold_spec outcome pages emptyResult with ⟨h1, h2, -⟩
    rw [emptyResult_success] at h1
    rw [emptyResult_failure] at h2
    have key := countP_add_countP_not outcome pages.flatten
    unfold pullCdrsRun
    rw [finalizeTotal_total, finalizeTotal_success, finalizeTotal_failure, h1, h2]
    omega
  · intro outcome pages
    rcases tokensFold_spec outcome pages emptyResult with ⟨h1, h2, h3, h4⟩
    rw [emptyResult_total] at h1
    rw [emptyResult_success] at h2
    rw [emptyResult_failure] at h3
    rw [emptyResult_ids] at h4
    have key := countP_add_countP_not outcome pages.flatten
    unfold pushTokensRun
    refine ⟨?_, ?_, ?_, ?_⟩
    · rw [h1, h2, h3]
      omega
    · rw [h1]
      omega
    · simp only [lastPatchJobResult, uniqFirst]
      exact nodup_uniqAux [] _
    · intro x
      simp only [lastPatchJobResult, uniqFirst]
      rw [mem_uniqAux, h4]
      simp
  · intro lenv pages st0
    rcases locRun_spec lenv pages (emptyResult, st0) with ⟨h1, h2⟩
    have e1 : ((emptyResult, st0) : OCPIResult × ReconState).1.total = 0 := rfl
    have e2 : ((emptyResult, st0) : OCPIResult × ReconState).1.success = 0 := rfl
    have e3 : ((emptyResult, st0) : OCPIResult × ReconState).1.failure = 0 := rfl
    rw [e1] at h1
    rw [e2, e3] at h2
    unfold pullLocationsRun
    refine ⟨h1, ?_⟩
    rw [h2]
    omega

/-! ## Helper lemmas about location reconciliation -/

theorem countP_congr2 {α : Type} (p q : α → Bool) :
    ∀ l : List α, (∀ a ∈ l, p a = q a) → l.countP p = l.countP q := by
  intro l
  induction l with
  | nil => intro _; rfl
  | cons a l ih =>
    intro h
    rw [List.countP_cons, List.countP_cons, h a (List.mem_cons_self a l),
      ih (fun x hx => h x (List.mem_cons_of_mem a hx))]

theorem countP_le_one_of_nodup_map {α β : Type} [DecidableEq β] (f : α → β) (l : List α)
    (hl : (l.map f).Nodup) (b : β) : l.countP (fun a => f a = b) ≤ 1 := by
  induction l with
  | nil => simp
  | cons a l ih =>
    rw [List.map_cons, List.nodup_cons] at hl
    rw [List.countP_cons]
    by_cases h : f a = b
    · have hz : l.countP (fun x => f x = b) = 0 := by
        rw [List.countP_eq_zero]
        intro x hx hpx
        exact hl.1 (List.mem_map.2 ⟨x, hx, by rw [of_decide_eq_true hpx, h]⟩)
      simp [h, hz]
    · have hle := ih hl.2
      simp [h]
      omega

theorem processLocSite_state_areas (n : String) (st : ReconState) :
    (processLocSite n st).2.storedAreas = st.storedAreas := by
  unfold processLocSite
  split <;> rfl

theorem processLocSite_inv (n : String) (st : ReconState)
    (h : st.existingSites = st.storedSites) :
    (processLocSite n st).2.existingSites = (processLocSite n st).2.storedSites := by
  unfold processLocSite
  split
  · exact h
  · simp [h]

theorem processLocSite_find (n : String) (st : ReconState) :
    (processLocSite n st).2.existingSites.find? (fun s => s.name = n)
      = some (processLocSite n st).1 := by
  unfold processLocSite
  split
  next s hs => exact hs
  next hnone =>
    show (st.existingSites ++ [({ id := st.nextId, name := n } : Site)]).find? _ = _
    rw [List.find?_append, hnone]
    simp

theorem processLocSite_of_found {n : String} {st : ReconState} {s : Site}
    (h : st.existingSites.find? (fun x => x.name = n) = some s) :
    processLocSite n st = (s, st) := by
  unfold processLocSite
  rw [h]

theorem processLocArea_state_sites (site : Site) (locId : String) (st : ReconState) :
    (processLocArea site locId st).2.storedSites = st.storedSites
    ∧ (processLocArea site locId st).2.existingSites = st.existingSites := by
  unfold processLocArea
  split <;> exact ⟨rfl, rfl⟩

theorem processLocArea_find (site : Site) (locId : String) (st : ReconState) :
    (processLocArea site locId st).2.storedAreas.find?
        (fun a => a.siteID = site.id ∧ a.name = areaNameOf site locId)
      = some (processLocArea site locId st).1 := by
  unfold processLocArea
  split
  next a ha => exact ha
  next hnone =>
    show (st.storedAreas
      ++ [({ id := st.nextId, siteID := site.id, name := areaNameOf site locId } : SiteArea)]).find? _ = _
    rw [List.find?_append, hnone]
    simp

theorem processLocArea_of_found {site : Site} {locId : String} {st : ReconState} {a : SiteArea}
    (h : st.storedAreas.find? (fun x => x.siteID = site.id ∧ x.name = areaNameOf site locId) = some a) :
    processLocArea site locId st = (a, st) := by
  unfold processLocArea
  rw [h]

theorem reconcileLoc_idem (lenv : LocEnv) (loc : OcpiLoc) (st : ReconState) :
    reconcileLoc lenv loc (reconcileLoc lenv loc st) = reconcileLoc lenv loc st := by
  have hst1 : reconcileLoc lenv loc st
      = (processLocArea (processLocSite (siteNameOf lenv loc) st).1 loc.id
          (processLocSite (siteNameOf lenv loc) st).2).2 := rfl
  have he : (processLocArea (processLocSite (siteNameOf lenv loc) st).1 loc.id
      (processLocSite (siteNameOf lenv loc) st).2).2.existingSites
      = (processLocSite (siteNameOf lenv loc) st).2.existingSites :=
    (processLocArea_state_sites _ _ _).2
  have hfind : (processLocArea (processLocSite (siteNameOf lenv loc) st).1 loc.id
      (processLocSite (siteNameOf lenv loc) st).2).2.existingSites.find?
        (fun s => s.name = siteNameOf lenv loc)
      = some (processLocSite (siteNameOf lenv loc) st).1 := by
    rw [he]
    exact processLocSite_find (siteNameOf lenv loc) st
  have h2 := processLocSite_of_found hfind
  have h3 := processLocArea_find (processLocSite (siteNameOf lenv loc) st).1 loc.id
    (processLocSite (siteNameOf lenv loc) st).2
  rw [hst1]
  unfold reconcileLoc
  simp only [h2]
  rw [processLocArea_of_found h3]

theorem site_count_one (n : String) (st : ReconState)
    (h1 : st.existingSites = st.storedSites)
    (h2 : (st.storedSites.map Site.name).Nodup) :
    (processLocSite n st).2.storedSites.countP (fun s => s.name = n) = 1 := by
  unfold processLocSite
  split
  next s hs =>
    have hmem : s ∈ st.storedSites := h1 ▸ List.mem_of_find?_eq_some hs
    have hp := List.find?_some hs
    have hpos : 0 < st.storedSites.countP (fun x => x.name = n) :=
      List.countP_pos_iff.2 ⟨s, hmem, hp⟩
    have hle := countP_le_one_of_nodup_map Site.name st.storedSites h2 n
    show st.storedSites.countP (fun s => s.name = n) = 1
    omega
  next hnone =>
    have hz : st.storedSites.countP (fun x => x.name = n) = 0 := by
      rw [List.countP_eq_zero]
      intro x hx hpx
      exact List.find?_eq_none.1 (h1 ▸ hnone) x hx hpx
    show (st.storedSites ++ [({ id := st.nextId, name := n } : Site)]).countP
      (fun s => s.name = n) = 1
    rw [List.countP_append, hz]
    simp

theorem area_count_one (site : Site) (locId : String) (st : ReconState)
    (h3 : (st.storedAreas.map fun a => (a.siteID, a.name)).Nodup) :
    (processLocArea site locId st).2.storedAreas.countP
        (fun a => a.siteID = site.id ∧ a.name = areaNameOf site locId) = 1 := by
  unfold processLocArea
  split
  next a ha =>
    have hmem := List.mem_of_find?_eq_some ha
    have hp := List.find?_some ha
    have hpos : 0 < st.storedAreas.countP
        (fun x => x.siteID = site.id ∧ x.name = areaNameOf site locId) :=
      List.countP_pos_iff.2 ⟨a, hmem, hp⟩
    have hle : st.storedAreas.countP
        (fun x => x.siteID = site.id ∧ x.name = areaNameOf site locId) ≤ 1 := by
      have hc := countP_le_one_of_nodup_map (fun a => (a.siteID, a.name)) st.storedAreas h3
        (site.id, areaNameOf site locId)
      have heq : st.storedAreas.countP
            (fun x => x.siteID = site.id ∧ x.name = areaNameOf site locId)
          = st.storedAreas.countP
            (fun x => (x.siteID, x.name) = (site.id, areaNameOf site locId)) := by
        apply countP_congr2
        intro x hx
        simp [Prod.ext_iff]
      rw [heq]
      exact hc
    show st.storedAreas.countP (fun a => a.siteID = site.id ∧ a.name = areaNameOf site locId) = 1
    omega
  next hnone =>
    have hz : st.storedAreas.countP
        (fun x => x.siteID = site.id ∧ x.name = areaNameOf site locId) = 0 := by
      rw [List.countP_eq_zero]
      intro x hx hpx
      exact List.find?_eq_none.1 hnone x hx hpx
    show (st.storedAreas
      ++ [({ id := st.nextId, siteID := site.id, name := areaNameOf site locId } : SiteArea)]).countP
      (fun a => a.siteID = site.id ∧ a.name = areaNameOf site locId) = 1
    rw [List.countP_append, hz]
    simp

/-! ## C9 -/

/-- C9: location reconciliation is idempotent on entity creation: from a
consistent state (working set equal to storage, unique site names, unique
site-area keys), processing the same location payload twice equals
processing it once, the consistency of the working set is preserved (so a
refresh at the start of the next run changes nothing), and afterwards
storage holds exactly one Site with the location's deterministic name and
exactly one SiteArea keyed by that site and `siteName + separator +
location id`. -/
theorem c9_reconciliation_idempotent (lenv : LocEnv) (loc : OcpiLoc) (st : ReconState)
    (h1 : st.existingSites = st.storedSites)
    (h2 : (st.storedSites.map Site.name).Nodup)
    (h3 : (st.storedAreas.map fun a => (a.siteID, a.name)).Nodup) :
    reconcileLoc lenv loc (reconcileLoc lenv loc st) = reconcileLoc lenv loc st
    ∧ (reconcileLoc lenv loc st).existingSites = (reconcileLoc lenv loc st).storedSites
    ∧ (reconcileLoc lenv loc st).storedSites.countP
        (fun s => s.name = siteNameOf lenv loc) = 1
    ∧ (reconcileLoc lenv loc st).storedAreas.countP
        (fun a => a.siteID = (processLocSite (siteNameOf lenv loc) st).1.id
          ∧ a.name = areaNameOf (processLocSite (siteNameOf lenv loc) st).1 loc.id) = 1 := by
  have hA := processLocArea_state_sites (processLocSite (siteNameOf lenv loc) st).1 loc.id
    (processLocSite (siteNameOf lenv loc) st).2
  have hB := processLocSite_state_areas (siteNameOf lenv loc) st
  refine ⟨reconcileLoc_idem lenv loc st, ?_, ?_, ?_⟩
  · show (processLocArea _ loc.id _).2.existingSites = (processLocArea _ loc.id _).2.storedSites
    rw [hA.1, hA.2]
    exact processLocSite_inv (siteNameOf lenv loc) st h1
  · show (processLocArea _ loc.id _).2.storedSites.countP _ = 1
    rw [hA.1]
    exact site_count_one (siteNameOf lenv loc) st h1 h2
  · show (processLocArea _ loc.id _).2.storedAreas.countP _ = 1
    exact area_count_one _ loc.id _ (by rw [hB]; exact h3)

/-- C9 witness: reconciling a concrete location twice from the empty
state. -/
theorem c9_witness :
    reconcileLoc lenvSimple locSimple (reconcileLoc lenvSimple locSimple reconEmpty)
        = reconcileLoc lenvSimple locSimple reconEmpty
    ∧ (reconcileLoc lenvSimple locSimple reconEmpty).existingSites
        = (reconcileLoc lenvSimple locSimple reconEmpty).storedSites
    ∧ (reconcileLoc lenvSimple locSimple reconEmpty).storedSites.countP
        (fun s => s.name = siteNameOf lenvSimple locSimple) = 1
    ∧ (reconcileLoc lenvSimple locSimple reconEmpty).storedAreas.countP
        (fun a => a.siteID = (processLocSite (siteNameOf lenvSimple locSimple) reconEmpty).1.id
          ∧ a.name = areaNameOf (processLocSite (siteNameOf lenvSimple locSimple) reconEmpty).1
              locSimple.id) = 1 :=
  c9_reconciliation_idempotent lenvSimple locSimple reconEmpty rfl (by decide) (by decide)

/-! ## C3 -/

/-- C3 counterexample: a location whose first EVSE has no uid and whose
second EVSE is well-formed produces no station effect at all — in
particular the second EVSE is never upserted — and the location raises, so
a missing uid does not fail only its own EVSE. -/
theorem c3_counterexample :
    processEvses lenvSimple.stationExists locBadFirstEvse.id locBadFirstEvse.evses = ([], true)
    ∧ LocEv.upsertStation "u2"
        ∉ (processEvses lenvSimple.stationExists locBadFirstEvse.id locBadFirstEvse.evses).1 := by
  decide

/-- C3 (amended): an EVSE with a missing uid raises a structured error out
of `processLocation`, aborting the remaining EVSEs of that location: the
station effects are exactly those of the EVSEs before the first missing-uid
EVSE. The error is caught per location by `pullLocations`, which counts one
failure for that location and continues the loop with the remaining
locations. -/
theorem c3_amended_missing_uid_fails_location :
    (∀ (stEx : String → String → Bool) (locId : String) (pre : List Evse) (e : Evse)
        (post : List Evse), e.uid = "" → (∀ x ∈ pre, x.uid ≠ "") →
      processEvses stEx locId (pre ++ e :: post) = ((processEvses stEx locId pre).1, true))
    ∧ (∀ (lenv : LocEnv) (acc : OCPIResult × ReconState) (loc : OcpiLoc) (locs : List OcpiLoc),
        (processLocation lenv loc acc.2).2.2 = true →
      (loc :: locs).foldl (pullLocationsStep lenv) acc
        = locs.foldl (pullLocationsStep lenv)
            ({ acc.1 with
               failure := acc.1.failure + 1,
               logs := acc.1.logs ++ ["Failed to update Location"] },
             (processLocation lenv loc acc.2).1)) := by
  constructor
  · intro stEx locId pre
    induction pre with
    | nil =>
      intro e post he _
      simp [processEvses, he]
    | cons x xs ih =>
      intro e post he hpre
      have hx : x.uid ≠ "" := hpre x (List.mem_cons_self x xs)
      have hxs : ∀ y ∈ xs, y.uid ≠ "" := fun y hy => hpre y (List.mem_cons_of_mem x hy)
      by_cases hr : x.removed = true <;>
        simp [processEvses, hx, hr, ih e post he hxs]
  · intro lenv acc loc locs h
    rw [List.foldl_cons]
    have : pullLocationsStep lenv acc loc
        = ({ acc.1 with
             failure := acc.1.failure + 1,
             logs := acc.1.logs ++ ["Failed to update Location"] },
           (processLocation lenv loc acc.2).1) := by
      simp [pullLocationsStep, h]
    rw [this]

/-- C3 witness: the abort branch evaluated at one well-formed EVSE followed
by a uid-less EVSE and another well-formed one. -/
theorem c3_witness :
    processEvses lenvSimple.stationExists "LOC2" ([evGood1] ++ evBad :: [evGood2])
      = ([LocEv.upsertStation "u1"], true) :=
  Eq.trans
    (c3_amended_missing_uid_fails_location.1 lenvSimple.stationExists "LOC2"
      [evGood1] evBad [evGood2] rfl (by decide))
    (by decide)

/-! ## C10 -/

/-- C10: constructing an `EmspOCPIClient` succeeds exactly for endpoints
whose role is EMSP; any other role raises a structured `BackendError`. -/
theorem c10_constructor_role_guard (ep : OCPIEndpointCfg) :
    (mkEmspOCPIClient ep = Except.ok { endpoint := ep } ↔ ep.role = OCPIRole.emsp)
    ∧ ((∃ msg, mkEmspOCPIClient ep = Except.error msg) ↔ ep.role ≠ OCPIRole.emsp) := by
  unfold mkEmspOCPIClient
  by_cases h : ep.role = OCPIRole.emsp <;> simp [h]
